import Mathlib

/-!
Verification of the `scraper.py` web-scraping program.

The HTML soup is shallowly embedded as a list of tags in document order.
`soup.find(name, attrs)` becomes `List.find?` over that list, which returns
the first matching tag (as BeautifulSoup does) or `none`; the Python
`try/except AttributeError` around `find(...).text` becomes a `match` on the
returned `Option`.
-/

namespace Scraper

/-- A parsed HTML element: tag name, `id` attribute, `class` attribute
(the raw attribute string), `href` attribute, and text content. -/
structure Tag where
  tagName : String
  idAttr : Option String
  classAttr : Option String
  href : Option String
  text : String
deriving DecidableEq

/-- A parsed page: its elements in document order. -/
abbrev Soup := List Tag

/-- Python `str.strip()`: drop leading and trailing whitespace. -/
def strip (s : String) : String :=
  ⟨List.reverse (List.dropWhile Char.isWhitespace
    (List.reverse (List.dropWhile Char.isWhitespace s.data)))⟩

/-- Whitespace word-splitting (Python `str.split()`), dropping empty
chunks, on a character list; `acc` is the current word reversed. -/
def wordsAux : List Char → List Char → List String
  | [], acc => if acc.isEmpty then [] else [⟨acc.reverse⟩]
  | c :: cs, acc =>
    if Char.isWhitespace c then
      if acc.isEmpty then wordsAux cs [] else ⟨acc.reverse⟩ :: wordsAux cs []
    else wordsAux cs (c :: acc)

/-- The whitespace-separated words of a string. -/
def words (s : String) : List String :=
  wordsAux s.data []

/-- Model of `soup.find(nm, attrs=\x7b"id": i\x7d)`: first element with that tag name
and that exact `id` attribute. -/
def findById (soup : Soup) (nm idv : String) : Option Tag :=
  soup.find? (fun t => t.tagName == nm && t.idAttr == some idv)

/-- BeautifulSoup single-class matching: the searched class is one of the
space-separated words of the element's `class` attribute. -/
def hasClassWord (t : Tag) (w : String) : Bool :=
  match t.classAttr with
  | none => false
  | some c => (words c).contains w

/-- Model of `soup.find(nm, \x7b"class": w\x7d)`: first element with that tag name whose
class list contains `w`. -/
def findByClass (soup : Soup) (nm w : String) : Option Tag :=
  soup.find? (fun t => t.tagName == nm && hasClassWord t w)

/-- Function `get_title` (scraper.py lines 8-15). -/
def get_title (soup : Soup) : String :=
  match findById soup "span" "productTitle" with
  | some title => strip title.text
  | none => "Title not found"

/-- Model of `re.sub` with pattern `[^\d.]` and empty replacement: keep only digits
and decimal points. -/
def stripNonPrice (s : String) : String :=
  String.mk (s.data.filter (fun c => c.isDigit || c == '.'))

/-- Model of `price.count('.')`. -/
def countDots (s : String) : Nat :=
  s.data.count '.'

/-- Model of `price.replace('.', '', n)`: remove the first `n` occurrences of the
decimal point, keeping every other character. -/
def removeDots : Nat → List Char → List Char
  | _, [] => []
  | 0, cs => cs
  | n + 1, c :: cs => if c == '.' then removeDots n cs else c :: removeDots (n + 1) cs

/-- Model of `price if price.count('.') <= 1 else price.replace('.', '', price.count('.') - 1)`. -/
def collapseDots (s : String) : String :=
  if countDots s ≤ 1 then s else String.mk (removeDots (countDots s - 1) s.data)

/-- The composite branch of `get_price`: combine the stripped whole and
fraction texts as `whole.fraction`, strip non-price characters, collapse
extra decimal points. -/
def compositePrice (whole fraction : String) : String :=
  collapseDots (stripNonPrice (strip whole ++ "." ++ strip fraction))

/-- Function `get_price` (scraper.py lines 18-47): nested `try/except AttributeError`
chain over the three id-based price elements, then the composite
whole/fraction pair, then the sentinel. -/
def get_price (soup : Soup) : String :=
  match findById soup "span" "priceblock_ourprice" with
  | some price => strip price.text
  | none =>
    match findById soup "span" "priceblock_dealprice" with
    | some price => strip price.text
    | none =>
      match findById soup "span" "priceblock_saleprice" with
      | some price => strip price.text
      | none =>
        match findByClass soup "span" "a-price-whole",
              findByClass soup "span" "a-price-fraction" with
        | some whole_price, some fraction_price =>
            compositePrice whole_price.text fraction_price.text
        | _, _ => "Price not found"

/-- Function `get_rating` (scraper.py lines 50-57). -/
def get_rating (soup : Soup) : String :=
  match findByClass soup "span" "a-icon-alt" with
  | some rating => strip rating.text
  | none => "Rating not found"

/-- Function `get_seller_name` (scraper.py lines 60-67). -/
def get_seller_name (soup : Soup) : String :=
  match findById soup "a" "sellerProfileTriggerId" with
  | some seller => strip seller.text
  | none => "Unknown Seller"

/-! ## Link collector (scraper.py lines 113-121) -/

/-- The product-card class signature searched by
`soup.find_all("a", class_="a-link-normal s-no-outline")`; a multi-word
class search matches the full class attribute string. -/
def productCardClass : String := "a-link-normal s-no-outline"

/-- Model of `pat in s` on character lists: some position of `s` starts with `pat`. -/
def hasSub (pat : List Char) : List Char → Bool
  | [] => pat.isEmpty
  | c :: cs => pat.isPrefixOf (c :: cs) || hasSub pat cs

/-- Model of `"/dp/" in link`. -/
def containsDp (link : String) : Bool :=
  hasSub "/dp/".data link.data

/-- Python `set.add`: insert if not already present (modelled on a list,
which in addition records insertion order). -/
def setInsert (acc : List String) (x : String) : List String :=
  if x ∈ acc then acc else acc ++ [x]

/-- The body of the collector loop:
`link = link_tag.get("href"); if link and "/dp/" in link:
product_links.add("https://www.amazon.in" + link)`. -/
def stepLink (product_links : List String) (link_tag : Tag) : List String :=
  match link_tag.href with
  | some link =>
      if !(link == "") && containsDp link then
        setInsert product_links ("https://www.amazon.in" ++ link)
      else product_links
  | none => product_links

/-- The loop over `soup.find_all("a", class_="a-link-normal s-no-outline")`,
running `stepLink` on each matching anchor, starting from the empty set. -/
def collect_links (soup : Soup) : List String :=
  (soup.filter (fun t => t.tagName == "a" && t.classAttr == some productCardClass)).foldl
    stepLink []

/-- The contribution of a single tag to `collect_links`: the normalized
absolute URL it adds, or `none` when it is filtered out or skipped. -/
def tagLink (t : Tag) : Option String :=
  if t.tagName == "a" && t.classAttr == some productCardClass then
    match t.href with
    | some link =>
        if !(link == "") && containsDp link then
          some ("https://www.amazon.in" ++ link)
        else none
    | none => none
  else none

/-- Model of `"/dp/" in link` where `link` may be Python `None`: membership testing
on `None` raises `TypeError`.  The short-circuit `link and "/dp/" in link`
is what keeps this branch unreached. -/
def containsDpE : Option String → Except String Bool
  | none => Except.error "TypeError: argument of type NoneType is not iterable"
  | some link => Except.ok (containsDp link)

/-- The collector loop with its potential failure made explicit: the body
first tests the truthiness of `link` (Python `None` or `""` are falsy) and
only then evaluates `"/dp/" in link`; an error raised there would
propagate. -/
def collectLinksGoE : List Tag → List String → Except String (List String)
  | [], product_links => Except.ok product_links
  | link_tag :: rest, product_links =>
    match link_tag.href with
    | none => collectLinksGoE rest product_links
    | some link =>
      if link == "" then collectLinksGoE rest product_links
      else
        match containsDpE (some link) with
        | Except.error e => Except.error e
        | Except.ok hasDp =>
            collectLinksGoE rest
              (if hasDp then setInsert product_links ("https://www.amazon.in" ++ link)
               else product_links)

/-- Fallible version of `collect_links`. -/
def collect_linksE (soup : Soup) : Except String (List String) :=
  collectLinksGoE
    (soup.filter (fun t => t.tagName == "a" && t.classAttr == some productCardClass)) []

/-! ## Persistence filter (scraper.py lines 136-143) -/

/-- One record of the result table, as built by `fetch_product_data`. -/
structure ProductRecord where
  name : String
  price : String
  rating : String
  seller : String
deriving DecidableEq

/-- A row after `amazon_df.replace("", np.nan)`: each cell is either a
string or the missing-value marker. -/
structure NanRow where
  name : Option String
  price : Option String
  rating : Option String
  seller : Option String
deriving DecidableEq

/-- Model of `replace("", np.nan)` on one cell. -/
def replaceEmpty (s : String) : Option String :=
  if s = "" then none else some s

/-- Model of `replace("", np.nan)` on one row. -/
def replaceEmptyRow (r : ProductRecord) : NanRow :=
  ⟨replaceEmpty r.name, replaceEmpty r.price, replaceEmpty r.rating, replaceEmpty r.seller⟩

/-- The persistence pipeline of `__main__`: `amazon_df.replace("", np.nan)`
followed by `amazon_df.dropna(subset=["Product Name"])`; the result is what
`to_csv` writes. -/
def amazon_persist (rows : List ProductRecord) : List NanRow :=
  (rows.map replaceEmptyRow).filter (fun r => r.name.isSome)

/-! ## The spec-side fallback chain for the price field -/

/-- First step of an ordered fallback chain that produced a value. -/
def firstSome : List (Option String) → Option String
  | [] => none
  | some x :: _ => some x
  | none :: rest => firstSome rest

/-- The four (locator, transform) steps of the price fallback chain, in the
spec's priority order. -/
def priceSteps (soup : Soup) : List (Option String) :=
  [(findById soup "span" "priceblock_ourprice").map (fun t => strip t.text),
   (findById soup "span" "priceblock_dealprice").map (fun t => strip t.text),
   (findById soup "span" "priceblock_saleprice").map (fun t => strip t.text),
   match findByClass soup "span" "a-price-whole",
         findByClass soup "span" "a-price-fraction" with
   | some w, some f => some (compositePrice w.text f.text)
   | _, _ => none]

/-- A clean price string: only digits and decimal points, and at most one
decimal point. -/
def isCleanPrice (s : String) : Bool :=
  s.data.all (fun c => c.isDigit || c == '.') && decide (countDots s ≤ 1)

/-- The collector loop one unfiltered tag at a time: each tag contributes
`tagLink` to the accumulated set. -/
def linksGo : Soup → List String → List String
  | [], acc => acc
  | t :: rest, acc =>
      linksGo rest (match tagLink t with | some u => setInsert acc u | none => acc)

end Scraper

namespace Scraper

/-! ## Helper lemmas -/

theorem count_removeDots (cs : List Char) (n : Nat) :
    (removeDots n cs).count '.' = cs.count '.' - n := by
  induction cs generalizing n with
  | nil => cases n <;> simp [removeDots]
  | cons c cs ih =>
    cases n with
    | zero => simp [removeDots]
    | succ m =>
      by_cases hc : c = '.'
      · subst hc
        simp only [removeDots, beq_self_eq_true, if_true, ih, List.count_cons]
        simp
      · simp only [removeDots, List.count_cons, beq_iff_eq, hc, if_false, ih]
        simp [hc]

theorem mem_removeDots {c : Char} (cs : List Char) (n : Nat)
    (h : c ∈ removeDots n cs) : c ∈ cs := by
  induction cs generalizing n with
  | nil => cases n <;> simp [removeDots] at h
  | cons d cs ih =>
    cases n with
    | zero =>
      simpa [removeDots] using h
    | succ m =>
      by_cases hd : d = '.'
      · subst hd
        simp only [removeDots, beq_self_eq_true, if_true] at h
        exact List.mem_cons_of_mem _ (ih _ h)
      · simp only [removeDots, beq_iff_eq, hd, if_false, List.mem_cons] at h
        rcases h with h | h
        · exact h ▸ List.mem_cons_self _ _
        · exact List.mem_cons_of_mem _ (ih _ h)

theorem countDots_collapseDots (s : String) : countDots (collapseDots s) ≤ 1 := by
  unfold collapseDots
  by_cases h : countDots s ≤ 1
  · rw [if_pos h]; exact h
  · rw [if_neg h]
    show (removeDots (countDots s - 1) s.data).count '.' ≤ 1
    rw [count_removeDots]
    unfold countDots at h ⊢
    omega

theorem mem_collapseDots {c : Char} {s : String}
    (h : c ∈ (collapseDots s).data) : c ∈ s.data := by
  unfold collapseDots at h
  by_cases hc : countDots s ≤ 1
  · rw [if_pos hc] at h; exact h
  · rw [if_neg hc] at h
    exact mem_removeDots _ _ h

theorem isCleanPrice_compositePrice (a b : String) :
    isCleanPrice (compositePrice a b) = true := by
  unfold isCleanPrice
  rw [Bool.and_eq_true]
  constructor
  · rw [List.all_eq_true]
    intro c hc
    have h1 : c ∈ (stripNonPrice (strip a ++ "." ++ strip b)).data :=
      @mem_collapseDots c (stripNonPrice (strip a ++ "." ++ strip b)) hc
    have h2 : c ∈ (strip a ++ "." ++ strip b).data.filter
        (fun c => c.isDigit || c == '.') := h1
    exact (List.mem_filter.mp h2).2
  · exact decide_eq_true (countDots_collapseDots _)

/-! ## Claim theorems -/

/-- C4: for every markup in which none of the four price patterns is
present (the three id-based elements are absent and at least one of the
composite whole/fraction pair is absent), `get_price` returns exactly the
sentinel "Price not found". -/
theorem no_pattern_price_sentinel (soup : Soup)
    (h1 : findById soup "span" "priceblock_ourprice" = none)
    (h2 : findById soup "span" "priceblock_dealprice" = none)
    (h3 : findById soup "span" "priceblock_saleprice" = none)
    (h4 : findByClass soup "span" "a-price-whole" = none
          ∨ findByClass soup "span" "a-price-fraction" = none) :
    get_price soup = "Price not found" := by
  unfold get_price
  rw [h1, h2, h3]
  rcases h4 with h4 | h4
  · rw [h4]
  · rw [h4]
    cases findByClass soup "span" "a-price-whole" <;> rfl

/-- Witness for C4: the empty page has none of the four price patterns and
yields the sentinel. -/
theorem no_pattern_price_sentinel_witness :
    get_price [] = "Price not found" :=
  no_pattern_price_sentinel [] rfl rfl rfl (Or.inl rfl)

/-- C5: the function `get_price` is exactly the fallback chain that tries the our-price,
deal-price, sale-price and composite steps in that fixed order and returns
the first step that produces a value, with the sentinel as default; hence
later steps never affect the result once an earlier locator matches. -/
theorem get_price_is_fallback_chain (soup : Soup) :
    get_price soup = (firstSome (priceSteps soup)).getD "Price not found" := by
  unfold get_price priceSteps
  cases findById soup "span" "priceblock_ourprice" <;>
    cases findById soup "span" "priceblock_dealprice" <;>
      cases findById soup "span" "priceblock_saleprice" <;>
        cases findByClass soup "span" "a-price-whole" <;>
          cases findByClass soup "span" "a-price-fraction" <;>
            simp [firstSome]

/-- C6: when the our-price element is absent and the deal-price element is
present, `get_price` returns the deal-price element's text with only
leading/trailing whitespace stripped, and no other modification. -/
theorem dealprice_text_stripped_only (soup : Soup) (t : Tag)
    (h1 : findById soup "span" "priceblock_ourprice" = none)
    (h2 : findById soup "span" "priceblock_dealprice" = some t) :
    get_price soup = strip t.text := by
  unfold get_price
  rw [h1, h2]

/-- Witness for C6: a page whose only price element is a deal-price span
with text " 1,299.00 " yields "1,299.00" (commas and all, only the outer
whitespace removed). -/
theorem dealprice_text_stripped_only_witness :
    get_price [(⟨"span", some "priceblock_dealprice", none, none, " 1,299.00 "⟩ : Tag)]
      = "1,299.00" :=
  Eq.trans
    (dealprice_text_stripped_only
      [⟨"span", some "priceblock_dealprice", none, none, " 1,299.00 "⟩]
      ⟨"span", some "priceblock_dealprice", none, none, " 1,299.00 "⟩
      (by decide) (by decide))
    (by decide)

/-- C9: the four field extractors are pure functions of the markup: equal
inputs give equal outputs, and no state is involved in the embedding. -/
theorem extractors_deterministic (s t : Soup) (h : s = t) :
    get_title s = get_title t ∧ get_price s = get_price t
      ∧ get_rating s = get_rating t ∧ get_seller_name s = get_seller_name t := by
  subst h
  exact ⟨rfl, rfl, rfl, rfl⟩

/-- Witness for C9 at the empty page. -/
theorem extractors_deterministic_witness :
    get_title [] = get_title [] ∧ get_price [] = get_price []
      ∧ get_rating [] = get_rating [] ∧ get_seller_name [] = get_seller_name [] :=
  extractors_deterministic [] [] rfl

/-- C10: the persistence pipeline (replace empty strings by the missing
marker, then drop rows whose Product Name is missing) keeps exactly the
rows whose name is a non-empty string; the filter is insensitive to the
other fields, so sentinel-named rows are retained. -/
theorem persist_filters_empty_names (rows : List ProductRecord) :
    amazon_persist rows
      = (rows.filter (fun r => !(r.name == ""))).map replaceEmptyRow := by
  induction rows with
  | nil => rfl
  | cons r rest ih =>
    simp only [amazon_persist, List.map_cons, List.filter_cons] at *
    by_cases h : r.name = ""
    · simp [replaceEmptyRow, replaceEmpty, h, ih]
    · simp [replaceEmptyRow, replaceEmpty, h, ih]

/-- C1 counterexample: a row whose Product Name is the sentinel
"Title not found" is not removed before persistence; the written table
consists of exactly that row. -/
theorem sentinel_row_survives_persistence :
    amazon_persist
        [⟨"Title not found", "Price not found", "Rating not found", "Unknown Seller"⟩]
      = [⟨some "Title not found", some "Price not found", some "Rating not found",
          some "Unknown Seller"⟩] := by
  decide

/-- C1 (amended): before persistence exactly the rows whose name field is
the empty string are removed (via the missing-value marker); a row whose
Product Name is any non-empty string, the sentinel "Title not found"
included, is retained. -/
theorem persist_drops_exactly_empty_names (rows : List ProductRecord)
    (r : ProductRecord) (hr : r ∈ rows) :
    replaceEmptyRow r ∈ amazon_persist rows ↔ r.name ≠ "" := by
  simp only [amazon_persist, List.mem_filter]
  constructor
  · intro h
    by_cases hn : r.name = ""
    · exfalso
      have h2 := h.2
      simp [replaceEmptyRow, replaceEmpty, hn] at h2
    · exact hn
  · intro h
    refine ⟨List.mem_map_of_mem _ hr, ?_⟩
    simp [replaceEmptyRow, replaceEmpty, h]

/-- Witness for the amended C1: the sentinel-named row of a one-row table
is in the persisted output. -/
theorem persist_drops_exactly_empty_names_witness :
    replaceEmptyRow (⟨"Title not found", "9.99", "4.0", "Shop"⟩ : ProductRecord)
      ∈ amazon_persist [⟨"Title not found", "9.99", "4.0", "Shop"⟩] :=
  (persist_drops_exactly_empty_names
      [⟨"Title not found", "9.99", "4.0", "Shop"⟩]
      ⟨"Title not found", "9.99", "4.0", "Shop"⟩
      (List.mem_singleton.mpr rfl)).mpr (by decide)


/-- C3: for every markup containing the composite whole-part and
fraction-part price elements but none of the three identifier-based
price elements, `get_price` returns a string consisting only of digits
and at most one decimal point. -/
theorem composite_only_price_clean (soup : Soup) (w f : Tag)
    (h1 : findById soup "span" "priceblock_ourprice" = none)
    (h2 : findById soup "span" "priceblock_dealprice" = none)
    (h3 : findById soup "span" "priceblock_saleprice" = none)
    (h4 : findByClass soup "span" "a-price-whole" = some w)
    (h5 : findByClass soup "span" "a-price-fraction" = some f) :
    isCleanPrice (get_price soup) = true := by
  unfold get_price
  rw [h1, h2, h3, h4, h5]
  exact isCleanPrice_compositePrice _ _

/-- Witness for C3: a page with only the composite pair, whose whole part
has a comma, yields a clean digits-and-one-dot string. -/
theorem composite_only_price_clean_witness :
    isCleanPrice (get_price
      [(⟨"span", none, some "a-price-whole", none, "1,234"⟩ : Tag),
       ⟨"span", none, some "a-price-fraction", none, "56"⟩]) = true :=
  composite_only_price_clean
    [⟨"span", none, some "a-price-whole", none, "1,234"⟩,
     ⟨"span", none, some "a-price-fraction", none, "56"⟩]
    ⟨"span", none, some "a-price-whole", none, "1,234"⟩
    ⟨"span", none, some "a-price-fraction", none, "56"⟩
    (by decide) (by decide) (by decide) (by decide) (by decide)

/-- C2 counterexample: on a page whose composite parts concatenate and
strip to "12.99.00" the code returns "1299.00" (the last decimal point is
kept), not "12.9900" as the claim states. -/
theorem collapse_first_occurrence_counterexample :
    stripNonPrice (strip "12" ++ "." ++ strip "99.00") = "12.99.00"
      ∧ get_price [(⟨"span", none, some "a-price-whole", none, "12"⟩ : Tag),
                   ⟨"span", none, some "a-price-fraction", none, "99.00"⟩] = "1299.00"
      ∧ ("1299.00" : String) ≠ "12.9900" := by
  refine ⟨by decide, by decide, by decide⟩

theorem count_zero_filter_dots (l : List Char) (h : l.count '.' = 0) :
    l.filter (fun c => !(c == '.')) = l := by
  induction l with
  | nil => rfl
  | cons c cs ih =>
    rw [List.count_cons] at h
    by_cases hc : c = '.'
    · simp [hc] at h
    · simp only [beq_iff_eq, hc, if_false, Nat.add_zero] at h
      simp [List.filter_cons, hc, ih h]

theorem removeDots_count_append (l rest : List Char) :
    removeDots (l.count '.') (l ++ rest)
      = l.filter (fun c => !(c == '.')) ++ rest := by
  induction l with
  | nil =>
    cases rest with
    | nil => rfl
    | cons c cs => rfl
  | cons c cs ih =>
    rw [List.count_cons, List.cons_append]
    by_cases hc : c = '.'
    · subst hc
      simp only [beq_self_eq_true, if_true]
      show removeDots (cs.count '.' + 1) ('.' :: (cs ++ rest))
        = List.filter (fun c => !(c == '.')) ('.' :: cs) ++ rest
      simp only [removeDots, beq_self_eq_true, if_true, List.filter_cons,
        Bool.not_true, ih]
      simp
    · have hcb : (c == '.') = false := by simp [hc]
      simp only [hcb, if_false, Nat.add_zero]
      cases hn : cs.count '.' with
      | zero =>
        show removeDots 0 (c :: (cs ++ rest))
          = List.filter (fun c => !(c == '.')) (c :: cs) ++ rest
        simp only [removeDots, List.filter_cons, hcb, Bool.not_false, if_true,
          List.cons_append]
        rw [count_zero_filter_dots cs hn]
      | succ m =>
        show removeDots (m + 1) (c :: (cs ++ rest))
          = List.filter (fun c => !(c == '.')) (c :: cs) ++ rest
        simp only [removeDots, hcb, if_false, List.filter_cons, Bool.not_false,
          if_true, List.cons_append]
        simp only [Bool.false_eq_true, if_false]
        rw [← hn, ih]

/-- C2 (amended): after concatenating and stripping, extra decimal points
are collapsed by removing the first `count - 1` occurrences, so only the
LAST decimal point survives; "12.99.00" collapses to "1299.00", not to
"12.9900". -/
theorem collapse_keeps_last_dot (a b : String)
    (ha : 1 ≤ countDots a) (hb : countDots b = 0) :
    collapseDots (a ++ "." ++ b)
      = String.mk (a.data.filter (fun c => !(c == '.'))) ++ "." ++ b := by
  have hdata : (a ++ "." ++ b).data = a.data ++ ('.' :: b.data) := by
    simp [String.data_append]
  have hcount : countDots (a ++ "." ++ b) = countDots a + 1 := by
    unfold countDots at hb ⊢
    rw [hdata, List.count_append, List.count_cons]
    simp [hb]
  unfold collapseDots
  rw [hcount, if_neg (by omega), hdata]
  have hsub : countDots a + 1 - 1 = a.data.count '.' := by
    unfold countDots
    omega
  rw [hsub, removeDots_count_append]
  apply String.ext
  simp [String.data_append]

/-- Witness for the amended C2: collapsing "12.99" ++ "." ++ "00" keeps
the last decimal point. -/
theorem collapse_keeps_last_dot_witness :
    1 ≤ countDots "12.99" ∧ countDots "00" = 0
      ∧ collapseDots ("12.99" ++ "." ++ "00")
          = String.mk ("12.99".data.filter (fun c => !(c == '.'))) ++ "." ++ "00" :=
  ⟨by decide, by decide, collapse_keeps_last_dot "12.99" "00" (by decide) (by decide)⟩


theorem stepLink_eq_tagLink (acc : List String) (t : Tag)
    (hsig : (t.tagName == "a" && t.classAttr == some productCardClass) = true) :
    stepLink acc t
      = match tagLink t with | some u => setInsert acc u | none => acc := by
  unfold stepLink tagLink
  rw [if_pos hsig]
  cases t.href with
  | none => rfl
  | some link =>
    by_cases hdp : (!(link == "") && containsDp link) = true
    · simp [hdp]
    · simp [hdp]

theorem tagLink_none_of_not_sig (t : Tag)
    (hsig : ¬ ((t.tagName == "a" && t.classAttr == some productCardClass) = true)) :
    tagLink t = none := by
  unfold tagLink
  rw [if_neg hsig]

theorem filter_foldl_eq_linksGo (soup : Soup) (acc : List String) :
    ((soup.filter (fun t => t.tagName == "a" && t.classAttr == some productCardClass)).foldl
      stepLink acc) = linksGo soup acc := by
  induction soup generalizing acc with
  | nil => rfl
  | cons t rest ih =>
    rw [List.filter_cons]
    unfold linksGo
    by_cases hsig : (t.tagName == "a" && t.classAttr == some productCardClass) = true
    · rw [if_pos hsig, List.foldl_cons, stepLink_eq_tagLink acc t hsig]
      exact ih _
    · rw [if_neg hsig, tagLink_none_of_not_sig t hsig]
      exact ih acc

theorem collect_links_eq_linksGo (soup : Soup) :
    collect_links soup = linksGo soup [] :=
  filter_foldl_eq_linksGo soup []

theorem setInsert_idem (acc : List String) (u : String) :
    setInsert (setInsert acc u) u = setInsert acc u := by
  unfold setInsert
  by_cases h : u ∈ acc
  · rw [if_pos h, if_pos h]
  · rw [if_neg h, if_pos (by simp)]

theorem linksGo_none (l : Soup) (acc : List String)
    (h : ∀ t ∈ l, tagLink t = none) : linksGo l acc = acc := by
  induction l with
  | nil => rfl
  | cons t rest ih =>
    unfold linksGo
    rw [h t (List.mem_cons_self t rest)]
    exact ih (fun x hx => h x (List.mem_cons_of_mem t hx))

theorem linksGo_mono (l : Soup) (acc : List String) (u : String)
    (h : ∀ t ∈ l, tagLink t = none ∨ tagLink t = some u) :
    linksGo l (setInsert acc u) = setInsert acc u := by
  induction l with
  | nil => rfl
  | cons t rest ih =>
    unfold linksGo
    rcases h t (List.mem_cons_self t rest) with ht | ht
    · rw [ht]
      exact ih (fun x hx => h x (List.mem_cons_of_mem t hx))
    · rw [ht]
      show linksGo rest (setInsert (setInsert acc u) u) = setInsert acc u
      rw [setInsert_idem]
      exact ih (fun x hx => h x (List.mem_cons_of_mem t hx))

theorem linksGo_reaches (l : Soup) (acc : List String) (u : String)
    (hall : ∀ t ∈ l, tagLink t = none ∨ tagLink t = some u)
    (hex : ∃ t ∈ l, tagLink t = some u) :
    linksGo l acc = setInsert acc u := by
  induction l generalizing acc with
  | nil =>
    rcases hex with ⟨t, ht, _⟩
    exact absurd ht (List.not_mem_nil t)
  | cons t rest ih =>
    unfold linksGo
    rcases hall t (List.mem_cons_self t rest) with ht | ht
    · rw [ht]
      show linksGo rest acc = setInsert acc u
      rcases hex with ⟨x, hx, hu⟩
      rcases List.mem_cons.mp hx with rfl | hmem
      · rw [ht] at hu
        exact Option.noConfusion hu
      · exact ih acc (fun y hy => hall y (List.mem_cons_of_mem t hy)) ⟨x, hmem, hu⟩
    · rw [ht]
      show linksGo rest (setInsert acc u) = setInsert acc u
      exact linksGo_mono rest acc u (fun y hy => hall y (List.mem_cons_of_mem t hy))

/-- C7: on a page where no tag contributes a product link the collector
returns the empty set, and on a page where every contributing anchor
yields the same normalized absolute URL `u` the collector returns the
one-element set {u} (deduplication by exact string equality). -/
theorem collect_links_empty_and_dedup (soup : Soup) (u : String) :
    ((∀ t ∈ soup, tagLink t = none) → collect_links soup = [])
      ∧ ((∀ t ∈ soup, tagLink t = none ∨ tagLink t = some u)
          → (∃ t ∈ soup, tagLink t = some u)
          → collect_links soup = [u] ∧ (collect_links soup).length = 1) := by
  constructor
  · intro h
    rw [collect_links_eq_linksGo]
    exact linksGo_none soup [] h
  · intro hall hex
    rw [collect_links_eq_linksGo, linksGo_reaches soup [] u hall hex]
    constructor
    · rfl
    · rfl

/-- Witness for C7: the empty page gives the empty set; a page with two
identical product-card anchors gives a singleton. -/
theorem collect_links_empty_and_dedup_witness :
    collect_links [] = []
      ∧ collect_links
          [(⟨"a", none, some "a-link-normal s-no-outline", some "/dp/ABC123", ""⟩ : Tag),
           ⟨"a", none, some "a-link-normal s-no-outline", some "/dp/ABC123", ""⟩]
          = ["https://www.amazon.in/dp/ABC123"] :=
  ⟨(collect_links_empty_and_dedup [] "x").1 (fun t ht => absurd ht (List.not_mem_nil t)),
   ((collect_links_empty_and_dedup
      [⟨"a", none, some "a-link-normal s-no-outline", some "/dp/ABC123", ""⟩,
       ⟨"a", none, some "a-link-normal s-no-outline", some "/dp/ABC123", ""⟩]
      "https://www.amazon.in/dp/ABC123").2 (by decide) (by decide)).1⟩

theorem collectLinksGoE_ok (l : List Tag) (acc : List String) :
    collectLinksGoE l acc = Except.ok (l.foldl stepLink acc) := by
  induction l generalizing acc with
  | nil => rfl
  | cons t rest ih =>
    rw [List.foldl_cons]
    cases h : t.href with
    | none =>
      simp only [collectLinksGoE, stepLink, h]
      exact ih acc
    | some link =>
      by_cases hl : (link == "") = true
      · simp only [collectLinksGoE, stepLink, h, hl]
        simp only [if_true, Bool.not_true, Bool.false_and, Bool.false_eq_true, if_false]
        exact ih acc
      · have hl' : (link == "") = false := by
          revert hl
          cases link == "" <;> simp
        simp only [collectLinksGoE, stepLink, containsDpE, h, hl']
        simp only [Bool.false_eq_true, if_false, Bool.not_false, Bool.true_and]
        exact ih _

/-- C8: the link collector never raises: the fallible version, whose
`"/dp/" in link` test on a missing href would error, always returns
`Except.ok` with exactly the links of `collect_links`; the error branch is
unreachable because anchors without an href are skipped first. -/
theorem collect_links_never_raises (soup : Soup) :
    collect_linksE soup = Except.ok (collect_links soup) :=
  collectLinksGoE_ok
    (soup.filter (fun t => t.tagName == "a" && t.classAttr == some productCardClass)) []

end Scraper
